import Mathlib

/-
Verification of the Test Result Analytics Engine of `scripts/test-reporting.py`
(classes `TestDataManager`, `JUnitParser`, `TestAnalytics`, `ReportGenerator`).
The Python code is embedded shallowly: machine floats become rationals,
timestamps become natural numbers (the stored ISO-8601 strings compare in the
same order as the instants they denote), Python dicts become association lists
in key-insertion order (CPython dicts iterate in insertion order), and a Python
expression that can raise becomes an `Except` value.
-/

namespace TestReporting

/-- Outcome of one executed test case.  The Python code represents the status
as one of the strings PASSED, FAILED, SKIPPED (field `TestResult.status`). -/
inductive Status where
  | PASSED
  | FAILED
  | SKIPPED
deriving DecidableEq, Repr

/-- Embedding of the `TestResult` dataclass of `scripts/test-reporting.py`. -/
structure TestResult where
  test_name : String
  test_suite : String
  status : Status
  duration : ℚ
  timestamp : Nat
  error_message : Option String := none
  error_type : Option String := none
  test_file : Option String := none
  environment : Option String := none
  component : Option String := none
deriving DecidableEq, Repr

/-- `TestDataManager.get_recent_results`: the SQL query
`SELECT * FROM test_results WHERE timestamp > ? ORDER BY timestamp DESC`
against the append-only `test_results` table, whose rows are the list of
stored results in insertion order.  The `?` placeholder is the cutoff
`datetime.now() - timedelta(days=days)`. -/
def query_since (store : List TestResult) (cutoff : Nat) : List TestResult :=
  (store.filter (fun r => cutoff < r.timestamp)).mergeSort
    (fun a b => b.timestamp ≤ a.timestamp)

/-- One step of building the `test_stats` dictionary in
`TestAnalytics.identify_flaky_tests`: a new test name is appended as a fresh
key, an existing key gets the status appended to its list. -/
def addStatus (acc : List (String × List Status)) (name : String) (st : Status) :
    List (String × List Status) :=
  if acc.any (fun p => p.1 == name) then
    acc.map (fun p => if p.1 == name then (p.1, p.2 ++ [st]) else p)
  else
    acc ++ [(name, [st])]

/-- The `test_stats` dictionary of `TestAnalytics.identify_flaky_tests`:
for each test name, the list of statuses of its records, in record order. -/
def testStats (results : List TestResult) : List (String × List Status) :=
  results.foldl (fun acc r => addStatus acc r.test_name r.status) []

/-- The statuses recorded for test `t`, in record order; this is the value
`test_stats[t]` holds once the grouping loop has run. -/
def statusesIn (results : List TestResult) (t : String) : List Status :=
  (results.filter (fun r => r.test_name == t)).map (fun r => r.status)

/-- One row of the flaky-test ranking returned by
`TestAnalytics.identify_flaky_tests`. -/
structure FlakyEntry where
  test_name : String
  total_executions : Nat
  passed_count : Nat
  failed_count : Nat
  flaky_score : ℚ
deriving DecidableEq, Repr

/-- The body of the loop over `test_stats.items()` in
`TestAnalytics.identify_flaky_tests`: a test yields a row only when it has at
least `min_executions` statuses and both a PASSED and a FAILED one; the score
is `min(passed_count, failed_count) / len(statuses) * 100`. -/
def flakyEntry? (min_executions : Nat) (p : String × List Status) :
    Option FlakyEntry :=
  if min_executions ≤ p.2.length then
    let passed_count := p.2.count Status.PASSED
    let failed_count := p.2.count Status.FAILED
    if 0 < passed_count ∧ 0 < failed_count then
      some { test_name := p.1
             total_executions := p.2.length
             passed_count := passed_count
             failed_count := failed_count
             flaky_score := (((min passed_count failed_count : ℕ) : ℚ) / (p.2.length : ℚ)) * 100 }
    else none
  else none

/-- `TestAnalytics.identify_flaky_tests` on the records of the window.
CPython's `sorted(..., key=..., reverse=True)` is a stable descending sort,
i.e. `mergeSort` with the reflexive relation "score at least as large". -/
def identify_flaky_tests (results : List TestResult) (min_executions : Nat) :
    List FlakyEntry :=
  ((testStats results).filterMap (flakyEntry? min_executions)).mergeSort
    (fun a b => b.flaky_score ≤ a.flaky_score)

/-- The per-day accumulator of `TestAnalytics.calculate_trend_analysis`
(the value dictionaries of `daily_stats`). -/
structure DayStats where
  total : Nat
  passed : Nat
  failed : Nat
  duration : ℚ
deriving DecidableEq, Repr

/-- `result.timestamp.date()`: timestamps are modelled in seconds and a
calendar day has 86400 of them, so records share a day exactly when their
timestamps lie in the same 86400-second block. -/
def dateOf (ts : Nat) : Nat := ts / 86400

/-- One record's contribution to its day's statistics in
`TestAnalytics.calculate_trend_analysis`. -/
def bumpDay (s : DayStats) (r : TestResult) : DayStats :=
  { total := s.total + 1
    passed := if r.status = Status.PASSED then s.passed + 1 else s.passed
    failed := if r.status = Status.FAILED then s.failed + 1 else s.failed
    duration := s.duration + r.duration }

/-- One step of building the `daily_stats` dictionary, keyed by calendar day
in first-appearance order. -/
def addDaily (acc : List (Nat × DayStats)) (r : TestResult) :
    List (Nat × DayStats) :=
  if acc.any (fun p => p.1 == dateOf r.timestamp) then
    acc.map (fun p => if p.1 == dateOf r.timestamp then (p.1, bumpDay p.2 r) else p)
  else
    acc ++ [(dateOf r.timestamp, bumpDay ⟨0, 0, 0, 0⟩ r)]

/-- The `daily_stats` dictionary of `TestAnalytics.calculate_trend_analysis`. -/
def dailyStats (results : List TestResult) : List (Nat × DayStats) :=
  results.foldl addDaily []

/-- `daily_stats[date]` lookup (the key is always present when taken from the
dictionary's own key list). -/
def statsFor (acc : List (Nat × DayStats)) (d : Nat) : DayStats :=
  ((acc.find? (fun p => p.1 == d)).map Prod.snd).getD ⟨0, 0, 0, 0⟩

/-- `sorted(daily_stats.keys())`: the distinct days of the window, ascending. -/
def sortedDates (results : List TestResult) : List Nat :=
  ((dailyStats results).map Prod.fst).mergeSort (fun a b => a ≤ b)

/-- The per-day success rate `(stats['passed'] / stats['total'] * 100) if
stats['total'] > 0 else 0` of `calculate_trend_analysis`. -/
def daySuccessRate (s : DayStats) : ℚ :=
  if 0 < s.total then (s.passed : ℚ) / (s.total : ℚ) * 100 else 0

/-- The per-day average duration `stats['duration'] / stats['total'] if
stats['total'] > 0 else 0` of `calculate_trend_analysis`. -/
def dayAvgDuration (s : DayStats) : ℚ :=
  if 0 < s.total then s.duration / (s.total : ℚ) else 0

/-- The `success_rates` series of `calculate_trend_analysis`, in ascending
day order. -/
def successRatesList (results : List TestResult) : List ℚ :=
  (sortedDates results).map (fun d => daySuccessRate (statsFor (dailyStats results) d))

/-- The `avg_durations` series of `calculate_trend_analysis`, in ascending
day order. -/
def avgDurationsList (results : List TestResult) : List ℚ :=
  (sortedDates results).map (fun d => dayAvgDuration (statsFor (dailyStats results) d))

/-- `TestAnalytics._calculate_linear_trend`: returns 0 for fewer than two
points, otherwise the least-squares slope
`(n*sum_xy - sum_x*sum_y) / (n*sum_x2 - sum_x*sum_x)`. -/
def calculate_linear_trend (x_values : List Nat) (y_values : List ℚ) : ℚ :=
  let n := x_values.length
  if n < 2 then 0
  else
    let sum_x : ℚ := (x_values.map (fun x : ℕ => (x : ℚ))).sum
    let sum_y : ℚ := y_values.sum
    let sum_xy : ℚ := ((x_values.zip y_values).map (fun p => (p.1 : ℚ) * p.2)).sum
    let sum_x2 : ℚ := (x_values.map (fun x : ℕ => (x : ℚ) * (x : ℚ))).sum
    ((n : ℚ) * sum_xy - sum_x * sum_y) / ((n : ℚ) * sum_x2 - sum_x * sum_x)

/-- The dictionary returned by `TestAnalytics.calculate_trend_analysis` on a
non-empty window. -/
structure TrendAnalysis where
  daily_stats : List (Nat × DayStats)
  success_rate_trend : ℚ
  duration_trend : ℚ
  average_success_rate : ℚ
  average_duration : ℚ
deriving DecidableEq, Repr

/-- `TestAnalytics.calculate_trend_analysis`; `none` models the marker
dictionary with message "No test results found" that is returned when the
window holds no records. -/
def calculate_trend_analysis (results : List TestResult) : Option TrendAnalysis :=
  if results = [] then none
  else
    let ds := dailyStats results
    let success_rates := successRatesList results
    let avg_durations := avgDurationsList results
    let success_trend :=
      if 1 < success_rates.length then
        calculate_linear_trend (List.range success_rates.length) success_rates
      else 0
    let duration_trend :=
      if 1 < success_rates.length then
        calculate_linear_trend (List.range success_rates.length) avg_durations
      else 0
    some { daily_stats := ds
           success_rate_trend := success_trend
           duration_trend := duration_trend
           average_success_rate :=
             if success_rates ≠ [] then success_rates.sum / (success_rates.length : ℚ) else 0
           average_duration :=
             if avg_durations ≠ [] then avg_durations.sum / (avg_durations.length : ℚ) else 0 }

/-- The record `calculate_trend_analysis` returns on a non-empty window,
with every let-binding of the code inlined. -/
def trendResult (results : List TestResult) : TrendAnalysis :=
  { daily_stats := dailyStats results
    success_rate_trend :=
      if 1 < (successRatesList results).length then
        calculate_linear_trend (List.range (successRatesList results).length)
          (successRatesList results)
      else 0
    duration_trend :=
      if 1 < (successRatesList results).length then
        calculate_linear_trend (List.range (successRatesList results).length)
          (avgDurationsList results)
      else 0
    average_success_rate :=
      if successRatesList results ≠ [] then
        (successRatesList results).sum / ((successRatesList results).length : ℚ)
      else 0
    average_duration :=
      if avgDurationsList results ≠ [] then
        (avgDurationsList results).sum / ((avgDurationsList results).length : ℚ)
      else 0 }

/-- Python `x or d` for an optional string `x`: both `None` and the empty
string are falsy, everything else is returned unchanged. -/
def orDefault (s : Option String) (d : String) : String :=
  match s with
  | some v => if v = "" then d else v
  | none => d

/-- One row of the `top_failing_tests` list produced by
`TestAnalytics._get_top_failing_tests`. -/
structure TopFailingTest where
  test_name : String
  failure_count : Nat
  latest_error : String
deriving DecidableEq, Repr

/-- The loop body of `_get_top_failing_tests`: bump the count for the record's
test name and overwrite `latest_error` with `result.error_message or ''`. -/
def addFailure (acc : List (String × Nat × String)) (r : TestResult) :
    List (String × Nat × String) :=
  let msg := orDefault r.error_message ""
  if acc.any (fun p => p.1 == r.test_name) then
    acc.map (fun p => if p.1 == r.test_name then (p.1, p.2.1 + 1, msg) else p)
  else
    acc ++ [(r.test_name, 1, msg)]

/-- `TestAnalytics._get_top_failing_tests`: group the failed records by name,
sort descending by count (stable), keep the first `limit` rows. -/
def get_top_failing_tests (failed_results : List TestResult) (limit : Nat) :
    List TopFailingTest :=
  (((failed_results.foldl addFailure []).mergeSort
      (fun a b => b.2.1 ≤ a.2.1)).take limit).map
    (fun p => { test_name := p.1, failure_count := p.2.1, latest_error := p.2.2 })

/-- Multiplicity count of `countBy`-style grouping dictionaries
(`error_types` via `len`, `component_failures` directly), in key-insertion
order. -/
def countBy (key : TestResult → String) (results : List TestResult) :
    List (String × Nat) :=
  results.foldl
    (fun acc r =>
      if acc.any (fun p => p.1 == key r) then
        acc.map (fun p => if p.1 == key r then (p.1, p.2 + 1) else p)
      else
        acc ++ [(key r, 1)]) []

/-- The dictionary returned by `TestAnalytics.analyze_failure_patterns`. -/
structure FailurePatterns where
  total_failures : Nat
  error_type_distribution : List (String × Nat)
  component_failure_distribution : List (String × Nat)
  top_failing_tests : List TopFailingTest
deriving DecidableEq, Repr

/-- `TestAnalytics.analyze_failure_patterns` on the records of the window. -/
def analyze_failure_patterns (results : List TestResult) : FailurePatterns :=
  let failed_results := results.filter (fun r => r.status == Status.FAILED)
  { total_failures := failed_results.length
    error_type_distribution :=
      countBy (fun r => orDefault r.error_type "Unknown") failed_results
    component_failure_distribution :=
      countBy (fun r => orDefault r.component "Unknown") failed_results
    top_failing_tests := get_top_failing_tests failed_results 10 }

/-- Python `results[-100:]` on a list: the suffix of length at most 100. -/
def pyLastN (n : Nat) (l : List TestResult) : List TestResult :=
  l.drop (l.length - n)

/-- The `test_results` field of `ReportGenerator.generate_json_report`:
`[asdict(result) for result in results[-100:]]` with
`results = self.data_manager.get_recent_results(days)`. -/
def json_test_results (store : List TestResult) (cutoff : Nat) : List TestResult :=
  pyLastN 100 (query_since store cutoff)

/-- The `summary` block of `ReportGenerator.generate_json_report`. -/
structure Summary where
  total_tests : Nat
  passed_tests : Nat
  failed_tests : Nat
  skipped_tests : Nat
  success_rate : ℚ
  total_duration : ℚ
  average_duration : ℚ
deriving DecidableEq, Repr

/-- The computation of the `summary` block of
`ReportGenerator.generate_json_report` over the window's records. -/
def json_summary (results : List TestResult) : Summary :=
  { total_tests := results.length
    passed_tests := (results.filter (fun r => r.status == Status.PASSED)).length
    failed_tests := (results.filter (fun r => r.status == Status.FAILED)).length
    skipped_tests := (results.filter (fun r => r.status == Status.SKIPPED)).length
    success_rate :=
      if results ≠ [] then
        ((results.filter (fun r => r.status == Status.PASSED)).length : ℚ)
          / (results.length : ℚ) * 100
      else 0
    total_duration := (results.map (fun r => r.duration)).sum
    average_duration :=
      if results ≠ [] then
        (results.map (fun r => r.duration)).sum / (results.length : ℚ)
      else 0 }

/-! ### The JUnit parser (`JUnitParser.parse_junit_file`) -/

/-- `Element.get(key)` on an XML element's attribute list. -/
def attrGet (attrs : List (String × String)) (key : String) : Option String :=
  (attrs.find? (fun p => p.1 == key)).map Prod.snd

/-- The numeric value of a digit list, most significant first. -/
def digitsToNat (cs : List Char) : Nat :=
  cs.foldl (fun n c => n * 10 + (c.toNat - 48)) 0

/-- Strip leading and trailing whitespace from a character list (the
whitespace stripping Python's `int`/`float` conversions perform). -/
def trimChars (cs : List Char) : List Char :=
  ((cs.dropWhile Char.isWhitespace).reverse.dropWhile Char.isWhitespace).reverse

/-- Python `int(s)` on a string: optional surrounding whitespace, an optional
sign, then one or more decimal digits; any other string raises `ValueError`.
(Underscore digit separators and non-decimal bases are not modelled.) -/
def pyInt (s : String) : Except String Int :=
  let t := trimChars s.toList
  let signBody : Int × List Char :=
    match t with
    | '+' :: rest => (1, rest)
    | '-' :: rest => (-1, rest)
    | _ => (1, t)
  if signBody.2 ≠ [] ∧ signBody.2.all Char.isDigit then
    Except.ok (signBody.1 * (digitsToNat signBody.2 : Int))
  else
    Except.error "ValueError: invalid literal for int"

/-- Python `float(s)` on a string: optional surrounding whitespace, an
optional sign, then digits with an optional decimal point carrying at least
one digit overall; any other string raises `ValueError`.  (Exponents, `inf`
and `nan` are not modelled.) -/
def pyFloat (s : String) : Except String ℚ :=
  let t := trimChars s.toList
  let signBody : ℚ × List Char :=
    match t with
    | '+' :: rest => (1, rest)
    | '-' :: rest => (-1, rest)
    | _ => (1, t)
  let ip := signBody.2.takeWhile Char.isDigit
  let rest := signBody.2.drop ip.length
  match rest with
  | [] =>
    if ip ≠ [] then Except.ok (signBody.1 * (digitsToNat ip : ℚ))
    else Except.error "ValueError: could not convert string to float"
  | '.' :: frac =>
    if frac.all Char.isDigit ∧ (ip ≠ [] ∨ frac ≠ []) then
      Except.ok (signBody.1 *
        ((digitsToNat ip : ℚ) + (digitsToNat frac : ℚ) / (10 : ℚ) ^ frac.length))
    else Except.error "ValueError: could not convert string to float"
  | _ => Except.error "ValueError: could not convert string to float"

/-- `int(testsuite.get(key, 0))`: an absent attribute yields the default `0`
(so `int(0) = 0`); a present attribute goes through Python `int`, which
raises on a non-numeric string. -/
def getIntAttr (attrs : List (String × String)) (key : String) : Except String Int :=
  match attrGet attrs key with
  | none => Except.ok 0
  | some s => pyInt s

/-- `float(testsuite.get(key, 0))`: an absent attribute yields `float(0) = 0.0`;
a present attribute goes through Python `float`, which raises on a
non-numeric string. -/
def getFloatAttr (attrs : List (String × String)) (key : String) : Except String ℚ :=
  match attrGet attrs key with
  | none => Except.ok 0
  | some s => pyFloat s

/-- The five suite-level numeric fields read by `parse_junit_file`. -/
structure SuiteCounts where
  total_tests : Int
  failures : Int
  errors : Int
  skipped : Int
  duration : ℚ
deriving DecidableEq, Repr

/-- Lines 219-223 of `parse_junit_file`: the suite-level attribute reads
`int(testsuite.get('tests', 0))`, `int(testsuite.get('failures', 0))`,
`int(testsuite.get('errors', 0))`, `int(testsuite.get('skipped', 0))`,
`float(testsuite.get('time', 0))`, evaluated in that order; the first raised
`ValueError` aborts the parse. -/
def parseSuiteCounts (attrs : List (String × String)) : Except String SuiteCounts := do
  let total_tests ← getIntAttr attrs "tests"
  let failures ← getIntAttr attrs "failures"
  let errors ← getIntAttr attrs "errors"
  let skipped ← getIntAttr attrs "skipped"
  let duration ← getFloatAttr attrs "time"
  pure { total_tests := total_tests
         failures := failures
         errors := errors
         skipped := skipped
         duration := duration }

/-- A `<failure>`, `<error>` or `<skipped>` child element of a test case:
its text content (`None` for an empty element) and its `message` and `type`
attributes. -/
structure MarkerElem where
  text : Option String
  message : Option String
  type : Option String
deriving DecidableEq, Repr

/-- A `<testcase>` element as read by `parse_junit_file`: `find` returns the
first matching child, or none. -/
structure CaseElem where
  failure : Option MarkerElem
  error : Option MarkerElem
  skipped : Option MarkerElem
deriving DecidableEq, Repr

/-- Python truthiness of an optional string: `None` and `""` are falsy. -/
def pyTruthy (s : Option String) : Bool :=
  match s with
  | none => false
  | some v => v ≠ ""

/-- Python `a or b` on two optional strings. -/
def pyOrOpt (a b : Option String) : Option String :=
  if pyTruthy a then a else b

/-- The status-resolution chain of `parse_junit_file` (lines 247-267):
failure marker, then error marker, then skipped marker, then PASSED; the
result is `(status, error_message, error_type)` exactly as the code assigns
them. -/
def resolveCase (c : CaseElem) : Status × Option String × Option String :=
  match c.failure with
  | some f => (Status.FAILED, pyOrOpt f.text f.message, some (f.type.getD "Failure"))
  | none =>
    match c.error with
    | some e => (Status.FAILED, pyOrOpt e.text e.message, some (e.type.getD "Error"))
    | none =>
      match c.skipped with
      | some sk => (Status.SKIPPED, pyOrOpt sk.text sk.message, some "Skipped")
      | none => (Status.PASSED, none, none)

/-- `passed_tests = total_tests - failures - errors - skipped` and
`success_rate = (passed_tests / total_tests * 100) if total_tests > 0 else 0`
(line 226 of `parse_junit_file`). -/
def suiteSuccessRate (total_tests passed_tests : Int) : ℚ :=
  if 0 < total_tests then (passed_tests : ℚ) / (total_tests : ℚ) * 100 else 0

/-! ### Checked variants

Python evaluates `/` strictly and raises `ZeroDivisionError` on a zero
denominator.  The checked variants below repeat each computation with that
strict division; proving them equal to an `Except.ok` of the plain variants
shows no execution of the code can divide by zero. -/

/-- Division as Python evaluates it: `ZeroDivisionError` on a zero
denominator. -/
def pyDiv (a b : ℚ) : Except String ℚ :=
  if b = 0 then Except.error "ZeroDivisionError" else Except.ok (a / b)

/-- Checked form of `suiteSuccessRate`. -/
def suiteSuccessRateChecked (total_tests passed_tests : Int) : Except String ℚ :=
  if 0 < total_tests then do
    let q ← pyDiv (passed_tests : ℚ) (total_tests : ℚ)
    pure (q * 100)
  else pure 0

/-- Checked form of `daySuccessRate`. -/
def daySuccessRateChecked (s : DayStats) : Except String ℚ :=
  if 0 < s.total then do
    let q ← pyDiv (s.passed : ℚ) (s.total : ℚ)
    pure (q * 100)
  else pure 0

/-- Checked form of `dayAvgDuration`. -/
def dayAvgDurationChecked (s : DayStats) : Except String ℚ :=
  if 0 < s.total then pyDiv s.duration (s.total : ℚ)
  else pure 0

/-- Checked form of `calculate_linear_trend`. -/
def calculate_linear_trend_checked (x_values : List Nat) (y_values : List ℚ) :
    Except String ℚ :=
  let n := x_values.length
  if n < 2 then pure 0
  else
    let sum_x : ℚ := (x_values.map (fun x : ℕ => (x : ℚ))).sum
    let sum_y : ℚ := y_values.sum
    let sum_xy : ℚ := ((x_values.zip y_values).map (fun p => (p.1 : ℚ) * p.2)).sum
    let sum_x2 : ℚ := (x_values.map (fun x : ℕ => (x : ℚ) * (x : ℚ))).sum
    pyDiv ((n : ℚ) * sum_xy - sum_x * sum_y) ((n : ℚ) * sum_x2 - sum_x * sum_x)

/-- Checked form of `calculate_trend_analysis`. -/
def calculate_trend_analysis_checked (results : List TestResult) :
    Except String (Option TrendAnalysis) :=
  if results = [] then pure none
  else do
    let ds := dailyStats results
    let dates := sortedDates results
    let success_rates ← dates.mapM (fun d => daySuccessRateChecked (statsFor ds d))
    let avg_durations ← dates.mapM (fun d => dayAvgDurationChecked (statsFor ds d))
    let success_trend ←
      if 1 < success_rates.length then
        calculate_linear_trend_checked (List.range success_rates.length) success_rates
      else pure 0
    let duration_trend ←
      if 1 < success_rates.length then
        calculate_linear_trend_checked (List.range success_rates.length) avg_durations
      else pure 0
    let average_success_rate ←
      if success_rates ≠ [] then pyDiv success_rates.sum (success_rates.length : ℚ)
      else pure 0
    let average_duration ←
      if avg_durations ≠ [] then pyDiv avg_durations.sum (avg_durations.length : ℚ)
      else pure 0
    pure (some { daily_stats := ds
                 success_rate_trend := success_trend
                 duration_trend := duration_trend
                 average_success_rate := average_success_rate
                 average_duration := average_duration })

/-- Checked form of `flakyEntry?`. -/
def flakyEntryChecked? (min_executions : Nat) (p : String × List Status) :
    Except String (Option FlakyEntry) :=
  if min_executions ≤ p.2.length then
    let passed_count := p.2.count Status.PASSED
    let failed_count := p.2.count Status.FAILED
    if 0 < passed_count ∧ 0 < failed_count then do
      let q ← pyDiv ((min passed_count failed_count : ℕ) : ℚ) (p.2.length : ℚ)
      pure (some { test_name := p.1
                   total_executions := p.2.length
                   passed_count := passed_count
                   failed_count := failed_count
                   flaky_score := q * 100 })
    else pure none
  else pure none

/-- Checked form of `identify_flaky_tests`. -/
def identify_flaky_tests_checked (results : List TestResult) (min_executions : Nat) :
    Except String (List FlakyEntry) := do
  let entries ← (testStats results).mapM (flakyEntryChecked? min_executions)
  pure ((entries.filterMap id).mergeSort (fun a b => b.flaky_score ≤ a.flaky_score))

/-- Checked form of `json_summary`. -/
def json_summaryChecked (results : List TestResult) : Except String Summary := do
  let success_rate ←
    if results ≠ [] then do
      let q ← pyDiv
        ((results.filter (fun r => r.status == Status.PASSED)).length : ℚ)
        (results.length : ℚ)
      pure (q * 100)
    else pure 0
  let average_duration ←
    if results ≠ [] then
      pyDiv ((results.map (fun r => r.duration)).sum) (results.length : ℚ)
    else pure 0
  pure { total_tests := results.length
         passed_tests := (results.filter (fun r => r.status == Status.PASSED)).length
         failed_tests := (results.filter (fun r => r.status == Status.FAILED)).length
         skipped_tests := (results.filter (fun r => r.status == Status.SKIPPED)).length
         success_rate := success_rate
         total_duration := (results.map (fun r => r.duration)).sum
         average_duration := average_duration }

/-! ### The spec-side slope formula (for claim C2) -/

/-- Modelled from the spec wording of the trend computation, for comparison
with `_calculate_linear_trend`: the ordinary-least-squares slope of a series
against day index `0..n-1`, `(n*Σxy - Σx*Σy) / (n*Σx² - (Σx)²)`, defined as 0
when `n < 2`. -/
def olsSlope (ys : List ℚ) : ℚ :=
  let n := ys.length
  if n < 2 then 0
  else
    let sx : ℚ := ∑ i ∈ Finset.range n, (i : ℚ)
    let sy : ℚ := ∑ i ∈ Finset.range n, ys.getD i 0
    let sxy : ℚ := ∑ i ∈ Finset.range n, (i : ℚ) * ys.getD i 0
    let sx2 : ℚ := ∑ i ∈ Finset.range n, (i : ℚ) * (i : ℚ)
    ((n : ℚ) * sxy - sx * sy) / ((n : ℚ) * sx2 - sx * sx)

/-- The qualification condition of claim C1 for a test name: at least
`min_executions` recorded executions in the window and at least one PASSED
and one FAILED outcome there. -/
def flakyQualifies (results : List TestResult) (min_executions : Nat) (t : String) : Prop :=
  min_executions ≤ (statusesIn results t).length ∧
    0 < (statusesIn results t).count Status.PASSED ∧
    0 < (statusesIn results t).count Status.FAILED

instance (results : List TestResult) (m : Nat) (t : String) :
    Decidable (flakyQualifies results m t) := by
  unfold flakyQualifies
  infer_instance

/-! ### Concrete inputs used by witnesses and counterexamples -/

/-- A minimal record with the given name, status and timestamp. -/
def mk (name : String) (st : Status) (ts : Nat) : TestResult :=
  { test_name := name
    test_suite := "s"
    status := st
    duration := 1
    timestamp := ts }

/-- Scenario B of the spec: one test with 6 recorded executions, 4 PASSED and
2 FAILED. -/
def rsB : List TestResult :=
  [mk "t1" Status.PASSED 1, mk "t1" Status.PASSED 2, mk "t1" Status.FAILED 3,
   mk "t1" Status.PASSED 4, mk "t1" Status.FAILED 5, mk "t1" Status.PASSED 6]

/-- The status list scenario B produces for test "t1". -/
def ssB : List Status :=
  [Status.PASSED, Status.PASSED, Status.FAILED, Status.PASSED, Status.FAILED,
   Status.PASSED]

/-- The flaky-ranking row scenario B produces. -/
def eB : FlakyEntry :=
  { test_name := "t1"
    total_executions := 6
    passed_count := 4
    failed_count := 2
    flaky_score := 100 / 3 }

/-- A two-record store used by the round-trip witness. -/
def storeW : List TestResult :=
  [mk "a" Status.PASSED 5, mk "b" Status.FAILED 3]

/-- A two-day window used by the trend witness: one PASSED record on day 0 and
one FAILED record on day 1. -/
def rsT : List TestResult :=
  [mk "a" Status.PASSED 0, mk "a" Status.FAILED 86400]

/-- A test case whose `<failure/>` marker has no text, no `message` attribute
and no `type` attribute. -/
def emptyFailureCase : CaseElem :=
  { failure := some { text := none, message := none, type := none }
    error := none
    skipped := none }

/-- A skipped test case with marker text. -/
def skippedCase : CaseElem :=
  { failure := none
    error := none
    skipped := some { text := some "skip", message := none, type := none } }

/-- A FAILED record with the older timestamp and message "old". -/
def rOld : TestResult :=
  { test_name := "t"
    test_suite := "s"
    status := Status.FAILED
    duration := 1
    timestamp := 1
    error_message := some "old"
    error_type := some "E" }

/-- A FAILED record of the same test with the newer timestamp and message
"new". -/
def rNew : TestResult :=
  { test_name := "t"
    test_suite := "s"
    status := Status.FAILED
    duration := 1
    timestamp := 2
    error_message := some "new"
    error_type := some "E" }

/-- A store of 101 records of one test with timestamps 101 down to 1 (the
list is the descending query order; any insertion order queries to it). -/
def store101 : List TestResult :=
  ((List.range 101).map (fun i => mk "t" Status.PASSED (i + 1))).reverse

/-! ## Association-list lemmas for the grouping dictionaries -/

theorem find?_map_update (l : List (String × List Status)) (n : String) (s : Status)
    (t : String) :
    (l.map (fun p => if p.1 == n then (p.1, p.2 ++ [s]) else p)).find?
        (fun p => p.1 == t)
      = (l.find? (fun p => p.1 == t)).map
          (fun p => if p.1 == n then (p.1, p.2 ++ [s]) else p) := by
  rw [List.find?_map]
  have hpred : ((fun p : String × List Status => p.1 == t) ∘
      (fun p => if p.1 == n then (p.1, p.2 ++ [s]) else p)) =
        fun p : String × List Status => p.1 == t := by
    funext q
    by_cases h : q.1 == n <;> simp [h, Function.comp]
  rw [hpred]

theorem addStatus_find? (acc : List (String × List Status)) (n : String) (s : Status)
    (t : String) :
    (addStatus acc n s).find? (fun p => p.1 == t) =
      if t = n then
        match acc.find? (fun p => p.1 == n) with
        | some p => some (p.1, p.2 ++ [s])
        | none => some (n, [s])
      else acc.find? (fun p => p.1 == t) := by
  unfold addStatus
  by_cases hany : acc.any (fun p => p.1 == n)
  · rw [if_pos hany]
    by_cases ht : t = n
    · subst ht
      rw [find?_map_update, if_pos rfl]
      rcases hfind : acc.find? (fun p => p.1 == t) with _ | q
      · rw [List.find?_eq_none] at hfind
        obtain ⟨x, hx, hpx⟩ := List.any_eq_true.mp hany
        exact absurd hpx (hfind x hx)
      · have hq := List.find?_some hfind
        rw [hfind]
        simp only [Option.map_some']
        rw [if_pos hq]
    · rw [find?_map_update, if_neg ht]
      rcases hfind : acc.find? (fun p => p.1 == t) with _ | q
      · rw [hfind]
        rfl
      · have hq : q.1 = t := by simpa using List.find?_some hfind
        have hqn : ¬ (q.1 == n) = true := by
          simp only [beq_iff_eq, hq]
          exact ht
        rw [hfind]
        simp only [Option.map_some']
        rw [if_neg hqn]
  · rw [if_neg hany, List.find?_append]
    by_cases ht : t = n
    · subst ht
      have hnone : acc.find? (fun p => p.1 == t) = none := by
        rw [List.find?_eq_none]
        intro x hx hpx
        exact hany (List.any_eq_true.mpr ⟨x, hx, hpx⟩)
      simp [hnone]
    · have hnt : (n == t) = false := by
        simp only [beq_eq_false_iff_ne, ne_eq]
        exact fun h => ht h.symm
      simp [ht, List.find?_cons, hnt]

theorem foldl_addStatus_find? (rs : List TestResult) :
    ∀ (acc : List (String × List Status)) (t : String),
      ((rs.foldl (fun a r => addStatus a r.test_name r.status) acc).find?
          (fun p => p.1 == t)) =
        match acc.find? (fun p => p.1 == t) with
        | some p => some (p.1, p.2 ++ statusesIn rs t)
        | none =>
          if statusesIn rs t = [] then none else some (t, statusesIn rs t) := by
  induction rs with
  | nil =>
    intro acc t
    simp only [List.foldl_nil, statusesIn, List.filter_nil, List.map_nil]
    rcases hfind : acc.find? (fun p => p.1 == t) with _ | q <;> simp [hfind]
  | cons r rest ih =>
    intro acc t
    rw [List.foldl_cons, ih]
    by_cases ht : t = r.test_name
    · rw [addStatus_find?, if_pos ht, ← ht]
      have hbeq : (r.test_name == t) = true := by simp [ht]
      have hstat : statusesIn (r :: rest) t = r.status :: statusesIn rest t := by
        simp [statusesIn, List.filter_cons, hbeq]
      rw [hstat]
      rcases hfind : acc.find? (fun p => p.1 == t) with _ | q <;>
        simp [hfind, List.append_assoc]
    · rw [addStatus_find?, if_neg ht]
      have hbeq : (r.test_name == t) = false := by
        simp only [beq_eq_false_iff_ne, ne_eq]
        exact fun h => ht h.symm
      have hstat : statusesIn (r :: rest) t = statusesIn rest t := by
        simp [statusesIn, List.filter_cons, hbeq]
      rw [hstat]

theorem testStats_find? (rs : List TestResult) (t : String) :
    (testStats rs).find? (fun p => p.1 == t) =
      if statusesIn rs t = [] then none else some (t, statusesIn rs t) := by
  have h := foldl_addStatus_find? rs [] t
  simpa [testStats] using h

theorem addStatus_keys (acc : List (String × List Status)) (n : String) (s : Status) :
    (addStatus acc n s).map Prod.fst =
      if acc.any (fun p => p.1 == n) then acc.map Prod.fst
      else acc.map Prod.fst ++ [n] := by
  unfold addStatus
  by_cases h : acc.any (fun p => p.1 == n)
  · rw [if_pos h, if_pos h, List.map_map]
    congr 1
    funext p
    by_cases hp : p.1 == n <;> simp [hp, Function.comp]
  · rw [if_neg h, if_neg h]
    simp

theorem testStats_keys_nodup (rs : List TestResult) :
    ((testStats rs).map Prod.fst).Nodup := by
  suffices h : ∀ acc : List (String × List Status), (acc.map Prod.fst).Nodup →
      (((rs.foldl (fun a r => addStatus a r.test_name r.status) acc)).map Prod.fst).Nodup by
    exact h [] (by simp)
  induction rs with
  | nil => intro acc h; simpa using h
  | cons r rest ih =>
    intro acc h
    rw [List.foldl_cons]
    apply ih
    rw [addStatus_keys]
    by_cases hany : acc.any (fun p => p.1 == r.test_name)
    · rwa [if_pos hany]
    · rw [if_neg hany]
      rw [List.nodup_append]
      refine ⟨h, List.nodup_singleton _, ?_⟩
      intro x hx hx1
      have hx' : x = r.test_name := by simpa using hx1
      subst hx'
      obtain ⟨p, hp, hpx⟩ := List.mem_map.mp hx
      exact hany (List.any_eq_true.mpr ⟨p, hp, by simp [hpx]⟩)

theorem mem_assoc_find? (l : List (String × List Status))
    (hnd : (l.map Prod.fst).Nodup) (p : String × List Status) (hp : p ∈ l) :
    l.find? (fun q => q.1 == p.1) = some p := by
  induction l with
  | nil => cases hp
  | cons q rest ih =>
    rw [List.map_cons, List.nodup_cons] at hnd
    rcases List.mem_cons.mp hp with h | h
    · subst h
      simp
    · have hq : (q.1 == p.1) = false := by
        simp only [beq_eq_false_iff_ne, ne_eq]
        intro he
        exact hnd.1 (he ▸ List.mem_map_of_mem Prod.fst h)
      rw [List.find?_cons, hq]
      exact ih hnd.2 h

theorem mem_testStats (rs : List TestResult) (p : String × List Status) :
    p ∈ testStats rs ↔ statusesIn rs p.1 ≠ [] ∧ p.2 = statusesIn rs p.1 := by
  constructor
  · intro hp
    have h1 := mem_assoc_find? _ (testStats_keys_nodup rs) p hp
    rw [testStats_find?] at h1
    by_cases h : statusesIn rs p.1 = []
    · rw [if_pos h] at h1
      cases h1
    · rw [if_neg h] at h1
      refine ⟨h, ?_⟩
      have := Option.some.inj h1
      exact congrArg Prod.snd this.symm
  · rintro ⟨h1, h2⟩
    have h3 := testStats_find? rs p.1
    rw [if_neg h1] at h3
    have h4 : (testStats rs).find? (fun q => q.1 == p.1) = some p := by
      rw [h3]
      congr 1
      exact (Prod.ext rfl h2.symm)
    exact List.mem_of_find?_eq_some h4

/-! ## The flaky-test pipeline -/

theorem flakyEntry?_eq_some (m : Nat) (p : String × List Status) (e : FlakyEntry) :
    flakyEntry? m p = some e ↔
      m ≤ p.2.length ∧ 0 < p.2.count Status.PASSED ∧ 0 < p.2.count Status.FAILED ∧
        e = { test_name := p.1
              total_executions := p.2.length
              passed_count := p.2.count Status.PASSED
              failed_count := p.2.count Status.FAILED
              flaky_score := (((min (p.2.count Status.PASSED)
                  (p.2.count Status.FAILED) : ℕ) : ℚ) / (p.2.length : ℚ)) * 100 } := by
  simp only [flakyEntry?]
  by_cases h1 : m ≤ p.2.length
  · rw [if_pos h1]
    by_cases h2 : 0 < p.2.count Status.PASSED ∧ 0 < p.2.count Status.FAILED
    · rw [if_pos h2]
      simp only [Option.some.injEq]
      constructor
      · intro h
        exact ⟨h1, h2.1, h2.2, h.symm⟩
      · intro h
        exact h.2.2.2.symm
    · rw [if_neg h2]
      constructor
      · intro h
        cases h
      · rintro ⟨_, hp, hf, _⟩
        exact absurd ⟨hp, hf⟩ h2
  · rw [if_neg h1]
    constructor
    · intro h
      cases h
    · rintro ⟨h, _⟩
      exact absurd h h1

theorem mem_identify_flaky (rs : List TestResult) (m : Nat) (e : FlakyEntry) :
    e ∈ identify_flaky_tests rs m ↔ ∃ p ∈ testStats rs, flakyEntry? m p = some e := by
  unfold identify_flaky_tests
  rw [List.mem_mergeSort, List.mem_filterMap]

theorem count_passed_add_failed_le_length (l : List Status) :
    l.count Status.PASSED + l.count Status.FAILED ≤ l.length := by
  induction l with
  | nil => simp
  | cons a t ih =>
    cases a <;> simp [List.count_cons] <;> omega

/-- Claim C1: a test appears in the flaky-test ranking iff it has at least
`min_executions` recorded executions in the window and at least one PASSED and
at least one FAILED outcome there, and every row reports
`flaky_score = min(passed_count, failed_count) / total_executions * 100` with
the counts and total taken over that test's records in the window. -/
theorem flaky_ranking_characterization (rs : List TestResult) (m : Nat) (t : String) :
    ((∃ e ∈ identify_flaky_tests rs m, e.test_name = t) ↔ flakyQualifies rs m t) ∧
    ∀ e ∈ identify_flaky_tests rs m,
      e.total_executions = (statusesIn rs e.test_name).length ∧
      e.passed_count = (statusesIn rs e.test_name).count Status.PASSED ∧
      e.failed_count = (statusesIn rs e.test_name).count Status.FAILED ∧
      e.flaky_score = (((min e.passed_count e.failed_count : ℕ) : ℚ)
        / (e.total_executions : ℚ)) * 100 := by
  constructor
  · constructor
    · rintro ⟨e, he, het⟩
      rw [mem_identify_flaky] at he
      obtain ⟨p, hp, hpe⟩ := he
      rw [mem_testStats] at hp
      rw [flakyEntry?_eq_some] at hpe
      obtain ⟨h1, h2, h3, hee⟩ := hpe
      have hname : p.1 = t := by
        rw [hee] at het
        exact het
      unfold flakyQualifies
      rw [← hname, ← hp.2]
      exact ⟨h1, h2, h3⟩
    · intro hq
      obtain ⟨h1, h2, h3⟩ := hq
      have hne : statusesIn rs t ≠ [] := by
        intro h0
        rw [h0] at h2
        simp at h2
      have hmem : (t, statusesIn rs t) ∈ testStats rs :=
        (mem_testStats rs (t, statusesIn rs t)).mpr ⟨hne, rfl⟩
      refine ⟨{ test_name := t
                total_executions := (statusesIn rs t).length
                passed_count := (statusesIn rs t).count Status.PASSED
                failed_count := (statusesIn rs t).count Status.FAILED
                flaky_score := (((min ((statusesIn rs t).count Status.PASSED)
                    ((statusesIn rs t).count Status.FAILED) : ℕ) : ℚ)
                  / ((statusesIn rs t).length : ℚ)) * 100 }, ?_, rfl⟩
      rw [mem_identify_flaky]
      exact ⟨(t, statusesIn rs t), hmem,
        (flakyEntry?_eq_some m _ _).mpr ⟨h1, h2, h3, rfl⟩⟩
  · intro e he
    rw [mem_identify_flaky] at he
    obtain ⟨p, hp, hpe⟩ := he
    rw [mem_testStats] at hp
    rw [flakyEntry?_eq_some] at hpe
    obtain ⟨h1, h2, h3, hee⟩ := hpe
    subst hee
    dsimp only
    rw [← hp.2]
    exact ⟨rfl, rfl, rfl, rfl⟩

/-- Witness for C1 at scenario B: 6 executions of "t1", 4 PASSED and 2 FAILED,
with `min_executions = 5`. -/
theorem flaky_ranking_characterization_witness :
    flakyQualifies rsB 5 "t1" ∧
    (∃ e ∈ identify_flaky_tests rsB 5, e.test_name = "t1") ∧
    ∀ e ∈ identify_flaky_tests rsB 5,
      e.flaky_score = (((min e.passed_count e.failed_count : ℕ) : ℚ)
        / (e.total_executions : ℚ)) * 100 := by
  have h := flaky_ranking_characterization rsB 5 "t1"
  refine ⟨by decide, h.1.mpr (by decide), ?_⟩
  intro e he
  exact ((h.2) e he).2.2.2

/-- Claim C3: every row of the flaky ranking has `0 < flaky_score ≤ 50`, with
50 attained exactly when the PASSED and FAILED counts are equal and exhaust
the executions. -/
theorem flaky_score_bounds (rs : List TestResult) (m : Nat) (e : FlakyEntry)
    (he : e ∈ identify_flaky_tests rs m) :
    0 < e.flaky_score ∧ e.flaky_score ≤ 50 ∧
      (e.flaky_score = 50 ↔
        e.passed_count = e.failed_count ∧
          e.passed_count + e.failed_count = e.total_executions) := by
  rw [mem_identify_flaky] at he
  obtain ⟨p, hp, hpe⟩ := he
  rw [flakyEntry?_eq_some] at hpe
  obtain ⟨h1, h2, h3, hee⟩ := hpe
  subst hee
  dsimp only
  have hPF : p.2.count Status.PASSED + p.2.count Status.FAILED ≤ p.2.length :=
    count_passed_add_failed_le_length p.2
  have hLpos : 0 < p.2.length := by omega
  have hLQ : (0 : ℚ) < (p.2.length : ℚ) := by exact_mod_cast hLpos
  have hmin : 0 < min (p.2.count Status.PASSED) (p.2.count Status.FAILED) := by omega
  have h2min : 2 * min (p.2.count Status.PASSED) (p.2.count Status.FAILED) ≤ p.2.length := by
    omega
  have hminQ : (0 : ℚ) <
      ((min (p.2.count Status.PASSED) (p.2.count Status.FAILED) : ℕ) : ℚ) := by
    exact_mod_cast hmin
  have h2minQ : 2 * ((min (p.2.count Status.PASSED) (p.2.count Status.FAILED) : ℕ) : ℚ)
      ≤ (p.2.length : ℚ) := by exact_mod_cast h2min
  refine ⟨?_, ?_, ?_⟩
  · apply mul_pos (div_pos hminQ hLQ)
    norm_num
  · rw [div_mul_eq_mul_div, div_le_iff₀ hLQ]
    linarith
  · rw [div_mul_eq_mul_div, div_eq_iff (ne_of_gt hLQ)]
    constructor
    · intro hq
      have h2eq : (2 * min (p.2.count Status.PASSED) (p.2.count Status.FAILED) : ℚ)
          = ((p.2.length : ℕ) : ℚ) := by
        push_cast
        push_cast at hq
        linarith
      have hN : 2 * min (p.2.count Status.PASSED) (p.2.count Status.FAILED)
          = p.2.length := by exact_mod_cast h2eq
      omega
    · rintro ⟨hpf, hsum⟩
      have hN : 2 * min (p.2.count Status.PASSED) (p.2.count Status.FAILED)
          = p.2.length := by omega
      have h2eq : 2 * ((min (p.2.count Status.PASSED) (p.2.count Status.FAILED) : ℕ) : ℚ)
          = (p.2.length : ℚ) := by exact_mod_cast hN
      linarith

/-- Witness for C3: the scenario-B row is in the ranking and satisfies the
bounds. -/
theorem flaky_score_bounds_witness :
    ∃ e ∈ identify_flaky_tests rsB 5,
      0 < e.flaky_score ∧ e.flaky_score ≤ 50 := by
  have hmem : eB ∈ identify_flaky_tests rsB 5 := by
    rw [mem_identify_flaky]
    refine ⟨("t1", ssB), by decide, ?_⟩
    rw [flakyEntry?_eq_some]
    have hP : ssB.count Status.PASSED = 4 := by decide
    have hF : ssB.count Status.FAILED = 2 := by decide
    have hL : ssB.length = 6 := by decide
    refine ⟨by decide, by decide, by decide, ?_⟩
    simp only [eB, hP, hF, hL, FlakyEntry.mk.injEq, true_and, and_true]
    have hm : (min 4 2 : ℕ) = 2 := by decide
    rw [hm]
    norm_num
  have h := flaky_score_bounds rsB 5 eB hmem
  exact ⟨eB, hmem, h.1, h.2.1⟩

/-! ## The store (claim C8) and empty-window behaviour (claim C9) -/

/-- Claim C9: a window with zero records is not an error: trend analysis
returns the "no data" marker, the flaky-test ranking is empty, and the
failure-pattern analysis is the zeroed structure. -/
theorem empty_window_analytics (m : Nat) :
    calculate_trend_analysis [] = none ∧
    identify_flaky_tests [] m = [] ∧
    analyze_failure_patterns [] =
      { total_failures := 0
        error_type_distribution := []
        component_failure_distribution := []
        top_failing_tests := [] } := by
  refine ⟨rfl, ?_, ?_⟩
  · simp [identify_flaky_tests, testStats, List.mergeSort_nil]
  · simp [analyze_failure_patterns, get_top_failing_tests, countBy,
      List.mergeSort_nil]

theorem query_since_perm (store : List TestResult) (cutoff : Nat)
    (h : ∀ r ∈ store, cutoff < r.timestamp) :
    (query_since store cutoff).Perm store := by
  unfold query_since
  have hf : store.filter (fun r => cutoff < r.timestamp) = store :=
    List.filter_eq_self.mpr (fun r hr => by simpa using h r hr)
  rw [hf]
  exact List.mergeSort_perm store _

/-- Claim C8: querying above a cutoff below every stored timestamp returns a
permutation of the whole store (in particular all N appended records and
nothing else), the result is ordered newest-first, and no record at or below
the cutoff is ever returned. -/
theorem store_query_roundtrip (store : List TestResult) (cutoff : Nat) :
    ((∀ r ∈ store, cutoff < r.timestamp) →
        (query_since store cutoff).Perm store ∧
        (query_since store cutoff).length = store.length) ∧
    (query_since store cutoff).Pairwise
      (fun a b => b.timestamp ≤ a.timestamp) ∧
    ∀ r ∈ query_since store cutoff, ¬ r.timestamp < cutoff := by
  refine ⟨?_, ?_, ?_⟩
  · intro h
    have hp := query_since_perm store cutoff h
    exact ⟨hp, hp.length_eq⟩
  · unfold query_since
    have hs := @List.sorted_mergeSort TestResult
      (fun a b : TestResult => decide (b.timestamp ≤ a.timestamp))
      (fun a b c hab hbc => by
        simp only [decide_eq_true_eq] at hab hbc ⊢
        exact le_trans hbc hab)
      (fun a b => by
        simp only [Bool.or_eq_true, decide_eq_true_eq]
        omega)
      (store.filter (fun r => cutoff < r.timestamp))
    exact hs.imp (fun hab => by simpa using hab)
  · intro r hr
    unfold query_since at hr
    rw [List.mem_mergeSort] at hr
    have hmem := List.of_mem_filter hr
    simp only [decide_eq_true_eq] at hmem
    omega

/-- Witness for C8: a two-record store with all timestamps above the cutoff. -/
theorem store_query_roundtrip_witness :
    (query_since storeW 0).Perm storeW ∧
    (query_since storeW 0).length = storeW.length ∧
    (query_since storeW 0).Pairwise (fun a b => b.timestamp ≤ a.timestamp) ∧
    ∀ r ∈ query_since storeW 0, ¬ r.timestamp < 0 := by
  have h := store_query_roundtrip storeW 0
  have h1 := h.1 (by decide)
  exact ⟨h1.1, h1.2, h.2.1, h.2.2⟩

/-! ## The least-squares slope (claim C2) -/

theorem listRange_map_sum (f : ℕ → ℚ) (n : ℕ) :
    ((List.range n).map f).sum = ∑ i ∈ Finset.range n, f i := by
  induction n with
  | zero => simp
  | succ k ih =>
    rw [List.range_succ, Finset.sum_range_succ, List.map_append, List.sum_append, ih]
    simp

theorem list_sum_getD (ys : List ℚ) :
    ys.sum = ∑ i ∈ Finset.range ys.length, ys.getD i 0 := by
  induction ys with
  | nil => simp
  | cons a t ih =>
    rw [List.sum_cons, List.length_cons, Finset.sum_range_succ']
    simp only [List.getD_cons_succ, List.getD_cons_zero]
    rw [← ih]
    ring

theorem zip_range_offset_sum (ys : List ℚ) :
    ∀ k : ℕ,
      ((((List.range ys.length).map (fun i => i + k)).zip ys).map
          (fun p => (p.1 : ℚ) * p.2)).sum
        = ∑ i ∈ Finset.range ys.length, ((i + k : ℕ) : ℚ) * ys.getD i 0 := by
  induction ys with
  | nil =>
    intro k
    simp
  | cons a t ih =>
    intro k
    rw [List.length_cons, List.range_succ_eq_map, List.map_cons, List.map_map]
    have hcomp : ((fun i => i + k) ∘ Nat.succ) = fun i : ℕ => i + (k + 1) := by
      funext i
      simp only [Function.comp_apply]
      omega
    rw [hcomp, List.zip_cons_cons, List.map_cons, List.sum_cons, ih (k + 1),
      Finset.sum_range_succ']
    simp only [List.getD_cons_succ, List.getD_cons_zero]
    have hsum : ∑ i ∈ Finset.range t.length, ((i + (k + 1) : ℕ) : ℚ) * t.getD i 0
        = ∑ i ∈ Finset.range t.length, ((i + 1 + k : ℕ) : ℚ) * t.getD i 0 :=
      Finset.sum_congr rfl (fun i _ => by congr 2; omega)
    rw [hsum]
    ring

theorem calculate_linear_trend_eq_ols (ys : List ℚ) :
    calculate_linear_trend (List.range ys.length) ys = olsSlope ys := by
  simp only [calculate_linear_trend, olsSlope, List.length_range]
  by_cases h : ys.length < 2
  · rw [if_pos h, if_pos h]
  · rw [if_neg h, if_neg h]
    have h0 : (List.range ys.length).map (fun i => i + 0) = List.range ys.length := by
      simp
    have h4 := zip_range_offset_sum ys 0
    rw [h0] at h4
    have h5 : ∑ i ∈ Finset.range ys.length, ((i + 0 : ℕ) : ℚ) * ys.getD i 0
        = ∑ i ∈ Finset.range ys.length, (i : ℚ) * ys.getD i 0 :=
      Finset.sum_congr rfl (fun i _ => by norm_num)
    rw [listRange_map_sum (fun i : ℕ => (i : ℚ)), list_sum_getD ys,
      listRange_map_sum (fun i : ℕ => (i : ℚ) * (i : ℚ)), h4, h5]

theorem successRates_length_eq (rs : List TestResult) :
    (successRatesList rs).length = (avgDurationsList rs).length := by
  simp [successRatesList, avgDurationsList]

theorem sortedDates_length_eq (rs : List TestResult) :
    (sortedDates rs).length = (successRatesList rs).length := by
  simp [successRatesList]

/-- Claim C2: over a non-empty window the reported trends are the OLS slopes
of the per-day series against indices `0..n-1` computed by the textbook
formula, and with fewer than two distinct days both trends are 0 (and no
error occurs: the analysis still returns a result). -/
theorem trend_is_ols_slope (rs : List TestResult) (h : rs ≠ []) :
    ∃ t, calculate_trend_analysis rs = some t ∧
      t.success_rate_trend = olsSlope (successRatesList rs) ∧
      t.duration_trend = olsSlope (avgDurationsList rs) ∧
      ((sortedDates rs).length < 2 →
        t.success_rate_trend = 0 ∧ t.duration_trend = 0) := by
  unfold calculate_trend_analysis
  rw [if_neg h]
  refine ⟨_, rfl, ?_, ?_, ?_⟩
  · dsimp only
    by_cases h2 : 1 < (successRatesList rs).length
    · rw [if_pos h2]
      exact calculate_linear_trend_eq_ols (successRatesList rs)
    · rw [if_neg h2]
      unfold olsSlope
      rw [if_pos (by omega)]
  · dsimp only
    by_cases h2 : 1 < (successRatesList rs).length
    · rw [if_pos h2]
      rw [successRates_length_eq]
      exact calculate_linear_trend_eq_ols (avgDurationsList rs)
    · rw [if_neg h2]
      unfold olsSlope
      have hlt : (avgDurationsList rs).length < 2 := by
        have := successRates_length_eq rs
        omega
      rw [if_pos hlt]
  · intro hlt
    have hs : (successRatesList rs).length < 2 := by
      have := sortedDates_length_eq rs
      omega
    dsimp only
    rw [if_neg (by omega), if_neg (by omega)]
    exact ⟨rfl, rfl⟩

/-! ## Division safety (claim C10) -/

theorem mapM_ok {α β : Type} (f : α → Except String β) (g : α → β) (l : List α)
    (h : ∀ a ∈ l, f a = Except.ok (g a)) : l.mapM f = Except.ok (l.map g) := by
  induction l with
  | nil => rfl
  | cons a t ih =>
    rw [List.mapM_cons, h a (List.mem_cons_self a t),
      ih (fun b hb => h b (List.mem_cons_of_mem a hb))]
    rfl

theorem pyDiv_ok (a b : ℚ) (hb : b ≠ 0) : pyDiv a b = Except.ok (a / b) := by
  unfold pyDiv
  rw [if_neg hb]

theorem suiteSuccessRateChecked_ok (total_tests passed_tests : Int) :
    suiteSuccessRateChecked total_tests passed_tests =
      Except.ok (suiteSuccessRate total_tests passed_tests) := by
  unfold suiteSuccessRateChecked suiteSuccessRate
  by_cases h : 0 < total_tests
  · have hne : (total_tests : ℚ) ≠ 0 := by
      simp only [ne_eq, Int.cast_eq_zero]
      omega
    rw [if_pos h, if_pos h, pyDiv_ok _ _ hne]
    rfl
  · rw [if_neg h, if_neg h]
    rfl

theorem daySuccessRateChecked_ok (s : DayStats) :
    daySuccessRateChecked s = Except.ok (daySuccessRate s) := by
  unfold daySuccessRateChecked daySuccessRate
  by_cases h : 0 < s.total
  · have hne : ((s.total : ℕ) : ℚ) ≠ 0 := by
      simp only [ne_eq, Nat.cast_eq_zero]
      omega
    rw [if_pos h, if_pos h, pyDiv_ok _ _ hne]
    rfl
  · rw [if_neg h, if_neg h]
    rfl

theorem dayAvgDurationChecked_ok (s : DayStats) :
    dayAvgDurationChecked s = Except.ok (dayAvgDuration s) := by
  unfold dayAvgDurationChecked dayAvgDuration
  by_cases h : 0 < s.total
  · have hne : ((s.total : ℕ) : ℚ) ≠ 0 := by
      simp only [ne_eq, Nat.cast_eq_zero]
      omega
    rw [if_pos h, if_pos h, pyDiv_ok _ _ hne]
  · rw [if_neg h, if_neg h]
    rfl

theorem sum_range_cast (n : ℕ) :
    ((List.range n).map (fun x : ℕ => (x : ℚ))).sum = (n : ℚ) * ((n : ℚ) - 1) / 2 := by
  induction n with
  | zero => simp
  | succ k ih =>
    rw [List.range_succ, List.map_append, List.sum_append, ih]
    simp only [List.map_cons, List.map_nil, List.sum_cons, List.sum_nil]
    push_cast
    ring

theorem sum_range_sq (n : ℕ) :
    ((List.range n).map (fun x : ℕ => (x : ℚ) * (x : ℚ))).sum
      = (n : ℚ) * ((n : ℚ) - 1) * (2 * (n : ℚ) - 1) / 6 := by
  induction n with
  | zero => simp
  | succ k ih =>
    rw [List.range_succ, List.map_append, List.sum_append, ih]
    simp only [List.map_cons, List.map_nil, List.sum_cons, List.sum_nil]
    push_cast
    ring

theorem slope_denom_ne_zero (n : ℕ) (hn : 2 ≤ n) :
    (n : ℚ) * ((List.range n).map (fun x : ℕ => (x : ℚ) * (x : ℚ))).sum
      - ((List.range n).map (fun x : ℕ => (x : ℚ))).sum
          * ((List.range n).map (fun x : ℕ => (x : ℚ))).sum ≠ 0 := by
  rw [sum_range_cast, sum_range_sq]
  have h2 : (2 : ℚ) ≤ (n : ℚ) := by exact_mod_cast hn
  have key : (n : ℚ) * ((n : ℚ) * ((n : ℚ) - 1) * (2 * (n : ℚ) - 1) / 6)
      - ((n : ℚ) * ((n : ℚ) - 1) / 2) * ((n : ℚ) * ((n : ℚ) - 1) / 2)
      = (n : ℚ) * (n : ℚ) * ((n : ℚ) - 1) * ((n : ℚ) + 1) / 12 := by
    ring
  rw [key]
  have hpos : (0 : ℚ) < (n : ℚ) * (n : ℚ) * ((n : ℚ) - 1) * ((n : ℚ) + 1) / 12 := by
    apply div_pos
    · apply mul_pos
      · apply mul_pos
        · nlinarith
        · linarith
      · linarith
    · norm_num
  exact ne_of_gt hpos

theorem linear_trend_checked_ok (n : ℕ) (ys : List ℚ) :
    calculate_linear_trend_checked (List.range n) ys
      = Except.ok (calculate_linear_trend (List.range n) ys) := by
  unfold calculate_linear_trend_checked calculate_linear_trend
  simp only [List.length_range]
  by_cases h : n < 2
  · rw [if_pos h, if_pos h]
    rfl
  · rw [if_neg h, if_neg h, pyDiv_ok _ _ (slope_denom_ne_zero n (by omega))]

theorem ok_bind {α β : Type} (a : α) (f : α → Except String β) :
    (Except.ok a : Except String α) >>= f = f a := rfl

theorem calculate_trend_analysis_eq (rs : List TestResult) (h : rs ≠ []) :
    calculate_trend_analysis rs = some (trendResult rs) := by
  unfold calculate_trend_analysis trendResult
  rw [if_neg h]

theorem trend_checked_ok (rs : List TestResult) :
    calculate_trend_analysis_checked rs = Except.ok (calculate_trend_analysis rs) := by
  by_cases h : rs = []
  · subst h
    rfl
  · rw [calculate_trend_analysis_eq rs h]
    simp only [calculate_trend_analysis_checked]
    rw [if_neg h,
      mapM_ok (fun d => daySuccessRateChecked (statsFor (dailyStats rs) d))
        (fun d => daySuccessRate (statsFor (dailyStats rs) d)) (sortedDates rs)
        (fun d _ => daySuccessRateChecked_ok _),
      ok_bind]
    try simp only []
    rw [mapM_ok (fun d => dayAvgDurationChecked (statsFor (dailyStats rs) d))
        (fun d => dayAvgDuration (statsFor (dailyStats rs) d)) (sortedDates rs)
        (fun d _ => dayAvgDurationChecked_ok _),
      ok_bind]
    try simp only []
    have hfold1 : (sortedDates rs).map
        (fun d => daySuccessRate (statsFor (dailyStats rs) d)) = successRatesList rs := rfl
    have hfold2 : (sortedDates rs).map
        (fun d => dayAvgDuration (statsFor (dailyStats rs) d)) = avgDurationsList rs := rfl
    rw [hfold1, hfold2]
    have hlen := successRates_length_eq rs
    by_cases h2 : 1 < (successRatesList rs).length
    · rw [if_pos h2, linear_trend_checked_ok, ok_bind]
      try simp only []
      rw [if_pos h2, linear_trend_checked_ok, ok_bind]
      try simp only []
      have hne : successRatesList rs ≠ [] := by
        intro h0
        rw [h0] at h2
        simp at h2
      have hne2 : avgDurationsList rs ≠ [] := by
        intro h0
        rw [h0] at hlen
        simp only [List.length_nil] at hlen
        exact hne (List.length_eq_zero.mp hlen)
      have hq1 : ((successRatesList rs).length : ℚ) ≠ 0 := by
        simp only [ne_eq, Nat.cast_eq_zero, List.length_eq_zero]
        exact hne
      have hq2 : ((avgDurationsList rs).length : ℚ) ≠ 0 := by
        simp only [ne_eq, Nat.cast_eq_zero, List.length_eq_zero]
        exact hne2
      rw [if_pos hne, pyDiv_ok _ _ hq1, ok_bind]
      try simp only []
      rw [if_pos hne2, pyDiv_ok _ _ hq2, ok_bind]
      try simp only []
      refine congrArg Except.ok (congrArg some ?_)
      unfold trendResult
      rw [if_pos h2, if_pos h2, if_pos hne, if_pos hne2]
    · rw [if_neg h2, pure_bind]
      try simp only []
      rw [if_neg h2, pure_bind]
      try simp only []
      by_cases hne : successRatesList rs = []
      · have hne2 : avgDurationsList rs = [] := by
          rw [hne] at hlen
          simp only [List.length_nil] at hlen
          exact List.length_eq_zero.mp hlen.symm
        rw [if_neg (not_not_intro hne), pure_bind]
        try simp only []
        rw [if_neg (not_not_intro hne2), pure_bind]
        try simp only []
        refine congrArg Except.ok (congrArg some ?_)
        unfold trendResult
        rw [if_neg h2, if_neg h2, if_neg (not_not_intro hne), if_neg (not_not_intro hne2)]
      · have hne2 : avgDurationsList rs ≠ [] := by
          intro h0
          rw [h0] at hlen
          simp only [List.length_nil] at hlen
          exact hne (List.length_eq_zero.mp hlen)
        have hq1 : ((successRatesList rs).length : ℚ) ≠ 0 := by
          simp only [ne_eq, Nat.cast_eq_zero, List.length_eq_zero]
          exact hne
        have hq2 : ((avgDurationsList rs).length : ℚ) ≠ 0 := by
          simp only [ne_eq, Nat.cast_eq_zero, List.length_eq_zero]
          exact hne2
        rw [if_pos hne, pyDiv_ok _ _ hq1, ok_bind]
        try simp only []
        rw [if_pos hne2, pyDiv_ok _ _ hq2, ok_bind]
        try simp only []
        refine congrArg Except.ok (congrArg some ?_)
        unfold trendResult
        rw [if_neg h2, if_neg h2, if_pos hne, if_pos hne2]

theorem flakyEntryChecked?_ok (m : Nat) (p : String × List Status) :
    flakyEntryChecked? m p = Except.ok (flakyEntry? m p) := by
  simp only [flakyEntryChecked?, flakyEntry?]
  by_cases h1 : m ≤ p.2.length
  · rw [if_pos h1, if_pos h1]
    by_cases h2 : 0 < p.2.count Status.PASSED ∧ 0 < p.2.count Status.FAILED
    · rw [if_pos h2, if_pos h2]
      have hlen : ((p.2.length : ℕ) : ℚ) ≠ 0 := by
        have hle : p.2.count Status.PASSED ≤ p.2.length := List.count_le_length _ _
        have h0 := h2.1
        simp only [ne_eq, Nat.cast_eq_zero]
        omega
      rw [pyDiv_ok _ _ hlen, ok_bind]
      rfl
    · rw [if_neg h2, if_neg h2]
      rfl
  · rw [if_neg h1, if_neg h1]
    rfl

theorem flaky_checked_ok (rs : List TestResult) (m : Nat) :
    identify_flaky_tests_checked rs m = Except.ok (identify_flaky_tests rs m) := by
  unfold identify_flaky_tests_checked identify_flaky_tests
  rw [mapM_ok (flakyEntryChecked? m) (flakyEntry? m) (testStats rs)
      (fun p _ => flakyEntryChecked?_ok m p),
    ok_bind]
  try simp only []
  rw [List.filterMap_map, Function.id_comp]
  rfl

theorem json_summary_checked_ok (rs : List TestResult) :
    json_summaryChecked rs = Except.ok (json_summary rs) := by
  unfold json_summaryChecked
  by_cases h : rs = []
  · subst h
    rfl
  · have hq : ((rs.length : ℕ) : ℚ) ≠ 0 := by
      simp only [ne_eq, Nat.cast_eq_zero, List.length_eq_zero]
      exact h
    rw [if_pos h, pyDiv_ok _ _ hq, ok_bind]
    try simp only []
    rw [pure_bind]
    try simp only []
    rw [if_pos h, pyDiv_ok _ _ hq, ok_bind]
    try simp only []
    unfold json_summary
    rw [if_pos h, if_pos h]
    rfl

/-- Claim C10: every ratio computation in the core, re-run with division that
fails on a zero denominator exactly as Python's `/` does, returns `Except.ok`
of the plain result on every input: the per-suite success rate, the per-day
success rate and average duration, the JSON summary rate and average, the
flaky score, and the trend pipeline including the slope division, whose
denominator is nonzero for n at least 2 indices 0..n-1. -/
theorem no_division_by_zero (rs : List TestResult) (m : Nat) (total passed : Int)
    (s : DayStats) :
    suiteSuccessRateChecked total passed = Except.ok (suiteSuccessRate total passed) ∧
    daySuccessRateChecked s = Except.ok (daySuccessRate s) ∧
    dayAvgDurationChecked s = Except.ok (dayAvgDuration s) ∧
    json_summaryChecked rs = Except.ok (json_summary rs) ∧
    identify_flaky_tests_checked rs m = Except.ok (identify_flaky_tests rs m) ∧
    calculate_trend_analysis_checked rs = Except.ok (calculate_trend_analysis rs) :=
  ⟨suiteSuccessRateChecked_ok total passed, daySuccessRateChecked_ok s,
   dayAvgDurationChecked_ok s, json_summary_checked_ok rs, flaky_checked_ok rs m,
   trend_checked_ok rs⟩

/-- Witness for C2 at a concrete two-day window. -/
theorem trend_is_ols_slope_witness :
    rsT ≠ [] ∧
    ∃ t, calculate_trend_analysis rsT = some t ∧
      t.success_rate_trend = olsSlope (successRatesList rsT) ∧
      t.duration_trend = olsSlope (avgDurationsList rsT) ∧
      ((sortedDates rsT).length < 2 →
        t.success_rate_trend = 0 ∧ t.duration_trend = 0) :=
  ⟨by decide, trend_is_ols_slope rsT (by decide)⟩

/-! ## The parser (claims C5 and C6) -/

theorem error_bind {α β : Type} (e : String) (f : α → Except String β) :
    (Except.error e : Except String α) >>= f = Except.error e := rfl

/-- Counterexample for C5: a suite whose `tests` attribute holds the
non-numeric string "abc" makes `int(testsuite.get('tests', 0))` raise
`ValueError`; the suite parse does not substitute 0. -/
theorem suite_nonnumeric_count_raises :
    parseSuiteCounts [("tests", "abc")] =
      Except.error "ValueError: invalid literal for int" := by rfl

/-- Claim C5 as amended: each suite count attribute defaults to 0 (the
duration to 0.0) when the attribute is absent, and that default path never
raises; but a present, non-numeric count attribute makes the conversion
raise and the error aborts the suite parse. -/
theorem suite_counts_amended (attrs : List (String × String)) :
    (∀ k, attrGet attrs k = none → getIntAttr attrs k = Except.ok 0) ∧
    (∀ k, attrGet attrs k = none → getFloatAttr attrs k = Except.ok 0) ∧
    (∀ c, parseSuiteCounts attrs = Except.ok c →
      (attrGet attrs "tests" = none → c.total_tests = 0) ∧
      (attrGet attrs "failures" = none → c.failures = 0) ∧
      (attrGet attrs "errors" = none → c.errors = 0) ∧
      (attrGet attrs "skipped" = none → c.skipped = 0) ∧
      (attrGet attrs "time" = none → c.duration = 0)) ∧
    (∀ s err, attrGet attrs "tests" = some s → pyInt s = Except.error err →
      parseSuiteCounts attrs = Except.error err) := by
  refine ⟨?_, ?_, ?_, ?_⟩
  · intro k hk
    unfold getIntAttr
    rw [hk]
  · intro k hk
    unfold getFloatAttr
    rw [hk]
  · intro c hc
    unfold parseSuiteCounts at hc
    rcases h1 : getIntAttr attrs "tests" with e1 | v1 <;> rw [h1] at hc
    · rw [error_bind] at hc
      exact Except.noConfusion hc
    rw [ok_bind] at hc
    try simp only [] at hc
    rcases h2 : getIntAttr attrs "failures" with e2 | v2 <;> rw [h2] at hc
    · rw [error_bind] at hc
      exact Except.noConfusion hc
    rw [ok_bind] at hc
    try simp only [] at hc
    rcases h3 : getIntAttr attrs "errors" with e3 | v3 <;> rw [h3] at hc
    · rw [error_bind] at hc
      exact Except.noConfusion hc
    rw [ok_bind] at hc
    try simp only [] at hc
    rcases h4 : getIntAttr attrs "skipped" with e4 | v4 <;> rw [h4] at hc
    · rw [error_bind] at hc
      exact Except.noConfusion hc
    rw [ok_bind] at hc
    try simp only [] at hc
    rcases h5 : getFloatAttr attrs "time" with e5 | v5 <;> rw [h5] at hc
    · rw [error_bind] at hc
      exact Except.noConfusion hc
    rw [ok_bind] at hc
    try simp only [] at hc
    have hcv : c = { total_tests := v1
                     failures := v2
                     errors := v3
                     skipped := v4
                     duration := v5 } := by
      cases hc
      rfl
    subst hcv
    refine ⟨?_, ?_, ?_, ?_, ?_⟩
    · intro hk
      unfold getIntAttr at h1
      rw [hk] at h1
      cases h1
      rfl
    · intro hk
      unfold getIntAttr at h2
      rw [hk] at h2
      cases h2
      rfl
    · intro hk
      unfold getIntAttr at h3
      rw [hk] at h3
      cases h3
      rfl
    · intro hk
      unfold getIntAttr at h4
      rw [hk] at h4
      cases h4
      rfl
    · intro hk
      unfold getFloatAttr at h5
      rw [hk] at h5
      cases h5
      rfl
  · intro s err hs herr
    unfold parseSuiteCounts getIntAttr
    rw [hs]
    dsimp only
    rw [herr, error_bind]

/-- Witness for the amended C5: with no attributes every count parses to 0;
with `tests="abc"` the parse raises. -/
theorem suite_counts_amended_witness :
    getIntAttr [] "tests" = Except.ok 0 ∧
    getFloatAttr [] "time" = Except.ok 0 ∧
    parseSuiteCounts [("tests", "abc")] =
      Except.error "ValueError: invalid literal for int" := by
  refine ⟨(suite_counts_amended []).1 "tests" rfl,
    (suite_counts_amended []).2.1 "time" rfl, ?_⟩
  exact (suite_counts_amended [("tests", "abc")]).2.2.2 "abc"
    "ValueError: invalid literal for int" rfl (by rfl)

/-- Counterexample for C6: a FAILED case whose failure marker carries neither
text nor a `message` attribute has no error message, so FAILED does not force
both failure-detail fields to be present. -/
theorem failed_case_without_message :
    (resolveCase emptyFailureCase).1 = Status.FAILED ∧
    (resolveCase emptyFailureCase).2.1 = none ∧
    (resolveCase emptyFailureCase).2.2 = some "Failure" :=
  ⟨rfl, rfl, rfl⟩

/-- Claim C6 as amended: PASSED still forces both failure-detail fields
absent and SKIPPED still forces the synthetic kind "Skipped", but FAILED only
forces the error-kind to be present (with its fallback label); the error
message can be absent when the marker has neither text nor a message
attribute. -/
theorem case_status_detail (c : CaseElem) :
    ((resolveCase c).1 = Status.PASSED →
      (resolveCase c).2.1 = none ∧ (resolveCase c).2.2 = none) ∧
    ((resolveCase c).1 = Status.FAILED → (resolveCase c).2.2.isSome = true) ∧
    ((resolveCase c).1 = Status.SKIPPED → (resolveCase c).2.2 = some "Skipped") := by
  rcases c with ⟨f, e, sk⟩
  cases f <;> cases e <;> cases sk <;> simp [resolveCase]

/-- Witness for the amended C6 at concrete PASSED, FAILED and SKIPPED cases. -/
theorem case_status_detail_witness :
    ((resolveCase { failure := none, error := none, skipped := none }).2.1 = none ∧
      (resolveCase { failure := none, error := none, skipped := none }).2.2 = none) ∧
    (resolveCase emptyFailureCase).2.2.isSome = true ∧
    (resolveCase skippedCase).2.2 = some "Skipped" :=
  ⟨(case_status_detail _).1 rfl,
   (case_status_detail emptyFailureCase).2.1 rfl,
   (case_status_detail skippedCase).2.2 rfl⟩

/-! ## The JSON report tail (claim C4) and top-failing messages (claim C7) -/

theorem store101_filter :
    store101.filter (fun r => 0 < r.timestamp) = store101 := by
  apply List.filter_eq_self.mpr
  intro r hr
  simp only [store101, List.mem_reverse, List.mem_map, List.mem_range] at hr
  obtain ⟨i, hi, rfl⟩ := hr
  simp [mk]

theorem store101_sorted :
    store101.Pairwise (fun a b : TestResult => b.timestamp ≤ a.timestamp) := by
  unfold store101
  rw [List.pairwise_reverse, List.pairwise_map]
  exact (List.pairwise_lt_range 101).imp (fun hij => by simp [mk]; omega)

theorem store101_query : query_since store101 0 = store101 := by
  unfold query_since
  rw [store101_filter]
  exact List.mergeSort_of_sorted
    (store101_sorted.imp (fun h => by simpa using h))

theorem store101_decomp :
    store101 = mk "t" Status.PASSED 101 ::
      ((List.range 100).map (fun i => mk "t" Status.PASSED (i + 1))).reverse := by
  unfold store101
  rw [List.range_succ, List.map_append, List.reverse_append]
  simp

theorem store101_json :
    json_test_results store101 0 =
      ((List.range 100).map (fun i => mk "t" Status.PASSED (i + 1))).reverse := by
  unfold json_test_results pyLastN
  rw [store101_query]
  have hlen : store101.length = 101 := by simp [store101]
  rw [hlen, store101_decomp]
  rfl

/-- Claim C4 fails on the code: with 101 records in the window (timestamps 1
to 101, cutoff 0), the JSON report's `results[-100:]` tail of the
newest-first query omits the newest record (timestamp 101) and embeds the
oldest (timestamp 1); every embedded record is older than the omitted one. -/
theorem json_tail_drops_newest :
    mk "t" Status.PASSED 101 ∈ query_since store101 0 ∧
    mk "t" Status.PASSED 101 ∉ json_test_results store101 0 ∧
    mk "t" Status.PASSED 1 ∈ json_test_results store101 0 ∧
    ∀ r ∈ json_test_results store101 0, r.timestamp < 101 := by
  refine ⟨?_, ?_, ?_, ?_⟩
  · rw [store101_query, store101_decomp]
    exact List.mem_cons_self _ _
  · rw [store101_json]
    intro h
    simp only [List.mem_reverse, List.mem_map, List.mem_range] at h
    obtain ⟨i, hi, hik⟩ := h
    have : i + 1 = 101 := congrArg TestResult.timestamp hik
    omega
  · rw [store101_json]
    simp only [List.mem_reverse, List.mem_map, List.mem_range]
    exact ⟨0, by norm_num, rfl⟩
  · intro r hr
    rw [store101_json] at hr
    simp only [List.mem_reverse, List.mem_map, List.mem_range] at hr
    obtain ⟨i, hi, rfl⟩ := hr
    simp [mk]
    omega

theorem query_rOld_rNew : query_since [rOld, rNew] 0 = [rNew, rOld] := by
  unfold query_since
  have hfilter : [rOld, rNew].filter (fun r => 0 < r.timestamp) = [rOld, rNew] := by
    decide
  rw [hfilter]
  simp [List.mergeSort, rOld, rNew]

/-- Claim C7 fails on the code: the report's `latest_error` for a test is the
message of the OLDEST failed record in the window, because the per-test entry
is overwritten while iterating the newest-first query result.  Here the test
"t" failed twice, the newer record carrying message "new" and the older
"old", yet the top-failing-tests row retains "old". -/
theorem top_failing_keeps_oldest_message :
    rOld.timestamp < rNew.timestamp ∧
    rNew.error_message = some "new" ∧
    (analyze_failure_patterns (query_since [rOld, rNew] 0)).top_failing_tests =
      [{ test_name := "t"
         failure_count := 2
         latest_error := "old" }] := by
  refine ⟨by decide, rfl, ?_⟩
  rw [query_rOld_rNew]
  simp [analyze_failure_patterns, get_top_failing_tests, addFailure, orDefault,
    countBy, rOld, rNew, List.mergeSort]

end TestReporting
